import Mathlib

/-!
Verification of the rig-acp-discovery detection-and-installation engine.

This file is a shallow embedding of the library's core logic:

* `src/detection/parser.rs` — tolerant version-string parsing (`parse_version`);
* `src/detect.rs` — per-agent detection (`detect_with_options`) and the
  parallel fan-out (`detect_one`, `detect_all_with_options`);
* `src/install/prereq.rs` — prerequisite checking (`check_prerequisite`,
  `can_install`);
* `src/install/executor.rs` — the install pipeline (`install`);
* `src/install/errors.rs` — `InstallError` and `fix_suggestion`.

Modelling conventions.  Rust strings are Lean `String`s (character-level work
happens on `List Char`); process execution, filesystem lookups and clock reads
are passed in explicitly as arguments, so every function here is the pure
residue of the corresponding Rust function once its I/O results are fixed.
Machine integers are `Nat` with explicit bounds where the source overflows
(`u32` parsing saturating to the `unwrap_or(0)` default, `u64` bounds in
semver).  The regex crate's `\d` is Unicode-aware (`\p{Nd}`): the matchers
here use the bundled Unicode `Nd` table, so a non-ASCII-digit leftmost match
shadows later ASCII matches exactly as in the source, and the ASCII-strict
validators (`semver::Version::parse`, `str::parse::<u32>`) then reject or
zero such matches.  All definitions are executable.
-/

/-! ## Character and string utilities -/

/-- Whitespace as Rust's `char::is_whitespace` (Unicode White_Space). -/
def isRustWhitespace (c : Char) : Bool :=
  c ∈ [' ', '\t', '\n', '\r', '\u000B', '\u000C', '\u0085', '\u00A0',
       '\u1680', '\u2000', '\u2001', '\u2002', '\u2003', '\u2004', '\u2005',
       '\u2006', '\u2007', '\u2008', '\u2009', '\u200A', '\u2028', '\u2029',
       '\u202F', '\u205F', '\u3000']

/-- Rust `str::trim`: strip whitespace from both ends. -/
def trimChars (l : List Char) : List Char :=
  ((l.dropWhile isRustWhitespace).reverse.dropWhile isRustWhitespace).reverse

/-- Rust `str::trim` lifted to `String`. -/
def rustTrim (s : String) : String := String.mk (trimChars s.data)

/-- Boolean prefix test on character lists. -/
def charsIsPrefixOf : List Char → List Char → Bool
  | [], _ => true
  | _ :: _, [] => false
  | a :: as, b :: bs => a == b && charsIsPrefixOf as bs

/-- Boolean substring test on character lists. -/
def charsIsInfixOf (pat : List Char) : List Char → Bool
  | [] => pat.isEmpty
  | c :: t => charsIsPrefixOf pat (c :: t) || charsIsInfixOf pat t

/-- Rust `str::contains(pat)`: `pat` occurs as a substring of `s`. -/
def strContains (s pat : String) : Bool := charsIsInfixOf pat.data s.data

/-- Numeric value of a decimal digit string. -/
def digitsVal (d : List Char) : Nat :=
  d.foldl (fun acc c => 10 * acc + (c.toNat - '0'.toNat)) 0

/-- Validity of a semver numeric identifier as checked by `semver::Version::parse`:
non-empty, ASCII decimal digits only (the parser rejects any other character,
including non-ASCII Unicode digits the regex may have matched), no leading
zero, and within `u64`. -/
def validNumeric (d : List Char) : Bool :=
  !d.isEmpty && d.all Char.isDigit && (d.head? != some '0' || d == ['0']) &&
  digitsVal d < 2 ^ 64

/-- Rust `str::parse::<u32>().ok().unwrap_or(0)` applied to a regex capture:
the value when the capture is all ASCII digits and fits in `u32`, and the
`unwrap_or` default `0` when the parse fails (non-ASCII Unicode digits or
overflow). -/
def parseU32 (d : List Char) : Nat :=
  if d.all Char.isDigit ∧ digitsVal d < 2 ^ 32 then digitsVal d else 0

/-- The character ranges of Unicode general category `Nd` (decimal digits),
Unicode 15.0.0 — the table `regex-syntax 0.8` bundles for the Unicode-aware
`\d` class that every pattern in `parser.rs` and `prereq.rs` uses. -/
def unicodeDigitRanges : List (Nat × Nat) :=
  [(0x30, 0x39), (0x660, 0x669), (0x6F0, 0x6F9), (0x7C0, 0x7C9),
   (0x966, 0x96F), (0x9E6, 0x9EF), (0xA66, 0xA6F), (0xAE6, 0xAEF),
   (0xB66, 0xB6F), (0xBE6, 0xBEF), (0xC66, 0xC6F), (0xCE6, 0xCEF),
   (0xD66, 0xD6F), (0xDE6, 0xDEF), (0xE50, 0xE59), (0xED0, 0xED9),
   (0xF20, 0xF29), (0x1040, 0x1049), (0x1090, 0x1099), (0x17E0, 0x17E9),
   (0x1810, 0x1819), (0x1946, 0x194F), (0x19D0, 0x19D9), (0x1A80, 0x1A89),
   (0x1A90, 0x1A99), (0x1B50, 0x1B59), (0x1BB0, 0x1BB9), (0x1C40, 0x1C49),
   (0x1C50, 0x1C59), (0xA620, 0xA629), (0xA8D0, 0xA8D9), (0xA900, 0xA909),
   (0xA9D0, 0xA9D9), (0xA9F0, 0xA9F9), (0xAA50, 0xAA59), (0xABF0, 0xABF9),
   (0xFF10, 0xFF19), (0x104A0, 0x104A9), (0x10D30, 0x10D39),
   (0x11066, 0x1106F), (0x110F0, 0x110F9), (0x11136, 0x1113F),
   (0x111D0, 0x111D9), (0x112F0, 0x112F9), (0x11450, 0x11459),
   (0x114D0, 0x114D9), (0x11650, 0x11659), (0x116C0, 0x116C9),
   (0x11730, 0x11739), (0x118E0, 0x118E9), (0x11950, 0x11959),
   (0x11C50, 0x11C59), (0x11D50, 0x11D59), (0x11DA0, 0x11DA9), (0x11F50, 0x11F59),
   (0x16A60, 0x16A69), (0x16AC0, 0x16AC9), (0x16B50, 0x16B59),
   (0x1D7CE, 0x1D7FF), (0x1E140, 0x1E149), (0x1E2F0, 0x1E2F9), (0x1E4F0, 0x1E4F9),
   (0x1E950, 0x1E959), (0x1FBF0, 0x1FBF9)]

/-- The regex crate's `\d`: any Unicode decimal digit.  Note this is wider
than ASCII `0-9`: the regex selects its leftmost match with this class, and
only afterwards do the ASCII-strict numeric parsers validate the match. -/
def isUnicodeDigit (c : Char) : Bool :=
  unicodeDigitRanges.any (fun r => r.1 ≤ c.toNat && c.toNat ≤ r.2)

/-! ## The regex matchers of `parser.rs` and `prereq.rs`

The source uses the patterns `[vV]?(\d+)\.(\d+)\.(\d+)`, `[vV]?(\d+)\.(\d+)`,
`v?(\d+)\.(\d+)` and `(\d+)\+` with `Regex::captures`, which reports the
leftmost match.  Because each `\d+` is followed by a non-digit requirement,
leftmost-first matching reduces to: at each start position take maximal digit
runs separated by the literal separators, and scan start positions left to
right; an optional `v` prefix is taken when the rest matches after it. -/

/-- A semantic version (major, minor, patch), as `semver::Version` with the
pre-release and build metadata always empty (the matched text is numeric). -/
structure Version where
  major : Nat
  minor : Nat
  patch : Nat
deriving DecidableEq, Repr

/-- Match `(\d+)\.(\d+)\.(\d+)` at the head of `s`: the matched text, the three
captured digit runs, and the remainder of `s` after the match. -/
def matchCore3 (s : List Char) :
    Option (List Char × (List Char × List Char × List Char) × List Char) :=
  let d1 := s.takeWhile isUnicodeDigit
  match s.dropWhile isUnicodeDigit with
  | '.' :: r2 =>
    let d2 := r2.takeWhile isUnicodeDigit
    match r2.dropWhile isUnicodeDigit with
    | '.' :: r4 =>
      let d3 := r4.takeWhile isUnicodeDigit
      if d1 = [] ∨ d2 = [] ∨ d3 = [] then none
      else some (d1 ++ '.' :: (d2 ++ '.' :: d3), (d1, d2, d3),
                 r4.dropWhile isUnicodeDigit)
    | _ => none
  | _ => none

/-- Match `(\d+)\.(\d+)` at the head of `s`. -/
def matchCore2 (s : List Char) :
    Option (List Char × (List Char × List Char) × List Char) :=
  let d1 := s.takeWhile isUnicodeDigit
  match s.dropWhile isUnicodeDigit with
  | '.' :: r2 =>
    let d2 := r2.takeWhile isUnicodeDigit
    if d1 = [] ∨ d2 = [] then none
    else some (d1 ++ '.' :: d2, (d1, d2), r2.dropWhile isUnicodeDigit)
  | _ => none

/-- Match the three-part pattern with its optional prefix (`[vV]?` in
`parser.rs`) at the head of `s`; the prefix is preferred when the core matches
after it, as in leftmost-first regex semantics. -/
def match3At (vchars : List Char) (s : List Char) :
    Option (List Char × (List Char × List Char × List Char) × List Char) :=
  match s with
  | [] => none
  | c :: t =>
    if c ∈ vchars then
      match matchCore3 t with
      | some (m, caps, rest) => some (c :: m, caps, rest)
      | none => matchCore3 (c :: t)
    else matchCore3 (c :: t)

/-- Match the two-part pattern with its optional prefix at the head of `s`. -/
def match2At (vchars : List Char) (s : List Char) :
    Option (List Char × (List Char × List Char) × List Char) :=
  match s with
  | [] => none
  | c :: t =>
    if c ∈ vchars then
      match matchCore2 t with
      | some (m, caps, rest) => some (c :: m, caps, rest)
      | none => matchCore2 (c :: t)
    else matchCore2 (c :: t)

/-- Leftmost match of the three-part pattern, as `Regex::captures`. -/
def findMatch3 (vchars : List Char) :
    List Char →
    Option (List Char × (List Char × List Char × List Char) × List Char)
  | [] => none
  | c :: t =>
    match match3At vchars (c :: t) with
    | some r => some r
    | none => findMatch3 vchars t

/-- Leftmost match of the two-part pattern, as `Regex::captures`. -/
def findMatch2 (vchars : List Char) :
    List Char → Option (List Char × (List Char × List Char) × List Char)
  | [] => none
  | c :: t =>
    match match2At vchars (c :: t) with
    | some r => some r
    | none => findMatch2 vchars t

/-- Match `(\d+)\+` at the head of `s`, returning the captured digits. -/
def matchMinAt (s : List Char) : Option (List Char) :=
  let d := s.takeWhile isUnicodeDigit
  if d = [] then none
  else
    match s.dropWhile isUnicodeDigit with
    | '+' :: _ => some d
    | _ => none

/-- Leftmost match of the minimum-version pattern `(\d+)\+` of `prereq.rs`. -/
def findMinVersion : List Char → Option (List Char)
  | [] => none
  | c :: t =>
    match matchMinAt (c :: t) with
    | some d => some d
    | none => findMinVersion t

/-! ## `parse_version` (`src/detection/parser.rs`) -/

/-- Rust `trim_start_matches(['v', 'V'])`. -/
def stripV (l : List Char) : List Char :=
  l.dropWhile (fun c => c == 'v' || c == 'V')

/-- The two-part guard of `parse_version`: the remainder after the match starts
with `'.'` followed by an ASCII digit (the head of an unmatched three-part
version). -/
def followedByDotDigit : List Char → Bool
  | '.' :: c :: _ => c.isDigit
  | _ => false

/-- Strict parse of a `major.minor.patch` digit string, as
`semver::Version::parse` on the matched text (which never carries pre-release
or build metadata): the whole string must be three digit runs separated by
dots, each a valid numeric identifier. -/
def versionParse (s : List Char) : Option Version :=
  match matchCore3 s with
  | some (_, (d1, d2, d3), []) =>
    if validNumeric d1 && validNumeric d2 && validNumeric d3 then
      some ⟨digitsVal d1, digitsVal d2, digitsVal d3⟩
    else none
  | _ => none

/-- First try of `parse_version`: the three-part pattern
`[vV]?(\d+)\.(\d+)\.(\d+)`, validated by `Version::parse` after stripping the
prefix. -/
def tryParse3 (output : List Char) : Option (Version × List Char) :=
  match findMatch3 ['v', 'V'] output with
  | some (m, _, _) =>
    match versionParse (stripV m) with
    | some v => some (v, m)
    | none => none
  | none => none

/-- Second try of `parse_version`: the two-part pattern `[vV]?(\d+)\.(\d+)`,
rejected when it is the head of an unmatched three-part version, otherwise
normalized by appending a zero patch component. -/
def tryParse2 (output : List Char) : Option (Version × List Char) :=
  match findMatch2 ['v', 'V'] output with
  | some (m, _, rest) =>
    if followedByDotDigit rest then none
    else
      match versionParse (stripV m ++ '.' :: ['0']) with
      | some v => some (v, m)
      | none => none
  | none => none

/-- The `parse_version` function of `src/detection/parser.rs`: the three-part
pattern is tried first; when it yields no valid version the two-part pattern is
tried; otherwise `None`. -/
def parse_version (output : List Char) : Option (Version × List Char) :=
  match tryParse3 output with
  | some r => some r
  | none => tryParse2 output

/-! ## Detection data model (`src/agent_kind.rs`, `src/agent_status.rs`,
`src/options.rs`) -/

/-- The `AgentKind` enum: the closed set of known agents. -/
inductive AgentKind
  | ClaudeCode
  | Codex
  | OpenCode
  | Gemini
deriving DecidableEq, BEq, Repr

/-- Rust `AgentKind::executable_name`. -/
def AgentKind.executable_name : AgentKind → String
  | .ClaudeCode => "claude"
  | .Codex => "codex"
  | .OpenCode => "opencode"
  | .Gemini => "gemini"

/-- Rust `AgentKind::display_name`. -/
def AgentKind.display_name : AgentKind → String
  | .ClaudeCode => "Claude Code"
  | .Codex => "Codex"
  | .OpenCode => "OpenCode"
  | .Gemini => "Gemini CLI"

/-- Rust `AgentKind::all()` (the `EnumIter` order of the declaration). -/
def AgentKind.all : List AgentKind := [.ClaudeCode, .Codex, .OpenCode, .Gemini]

/-- The `DetectionError` enum of `agent_status.rs`. -/
inductive DetectionError
  | Timeout
  | PermissionDenied
  | VersionParseFailed
  | IoError
deriving DecidableEq, Repr

/-- Rust `DetectionError::description`. -/
def DetectionError.description : DetectionError → String
  | .Timeout => "Detection timed out"
  | .PermissionDenied => "Permission denied"
  | .VersionParseFailed => "Failed to parse version"
  | .IoError => "I/O error during detection"

/-- The `InstalledMetadata` struct; `SystemTime` is modelled as a `Nat`
timestamp supplied by the environment. -/
structure InstalledMetadata where
  path : String
  version : Option Version
  raw_version : Option String
  install_method : Option String
  last_verified : Nat
  reasoning_level : Option String
deriving DecidableEq, Repr

/-- The `AgentStatus` enum of `agent_status.rs`. -/
inductive AgentStatus
  | Installed (meta : InstalledMetadata)
  | NotInstalled
  | VersionMismatch (found : Version) (required : Version) (path : String)
  | Unknown (error : DetectionError) (message : String)
deriving DecidableEq, Repr

/-- Rust `AgentStatus::is_usable`. -/
def AgentStatus.is_usable : AgentStatus → Bool
  | .Installed _ => true
  | _ => false

/-- The `DetectOptions` struct; the timeout `Duration` is an abstract `Nat`. -/
structure DetectOptions where
  timeout : Nat
  skip_version : Bool
deriving DecidableEq, Repr

/-! ## Detection (`src/detect.rs`)

The per-agent pipeline performs three effects: `find_executable` (filesystem
and `PATH`), `check_version` (subprocess under a timeout) and a clock read.
Their results are the extra arguments `resolved`, `probe` and `now`. -/

/-- Rust `detect_install_method` (the non-Windows build: npm, cargo, brew and
mise markers; the Windows-only arms are compiled out). -/
def detect_install_method (path : String) : Option String :=
  if strContains path ".npm" || strContains path "node_modules" then some "npm"
  else if strContains path ".cargo" then some "cargo"
  else if strContains path "homebrew" || strContains path "linuxbrew" then
    some "brew"
  else if strContains path "mise" then some "mise"
  else none

/-- Rust `detect_with_options` with its effects supplied: `resolved` is the
`find_executable` result, `probe` the `check_version` result and `now` the
`SystemTime::now()` reading. -/
def detect_with_options (kind : AgentKind) (options : DetectOptions)
    (resolved : Option String) (probe : Except DetectionError String)
    (now : Nat) : AgentStatus :=
  match resolved with
  | none => .NotInstalled
  | some path =>
    if options.skip_version then
      .Installed ⟨path, none, none, detect_install_method path, now, none⟩
    else
      match probe with
      | .error .Timeout => .NotInstalled
      | .error e =>
        .Unknown e
          ("Failed to verify " ++ kind.display_name ++ ": " ++ e.description)
      | .ok version_output =>
        match parse_version version_output.data with
        | some (v, raw) =>
          .Installed ⟨path, some v, some (String.mk raw),
                      detect_install_method path, now, none⟩
        | none =>
          .Installed ⟨path, none, some (rustTrim version_output),
                      detect_install_method path, now, none⟩

/-- The per-agent effect results consumed by one detection: the resolved path,
the probe result and the clock reading. -/
structure DetectEnv where
  resolved : Option String
  probe : Except DetectionError String
  now : Nat

/-- Rust `detect_one`: wraps a detection outcome into a `Result`, propagating
`Unknown` as `Err` and every other status as `Ok`. -/
def detect_one (kind : AgentKind) (options : DetectOptions) (env : DetectEnv) :
    AgentKind × Except DetectionError AgentStatus :=
  let status := detect_with_options kind options env.resolved env.probe env.now
  (kind,
   match status with
   | .Installed _ => .ok status
   | .NotInstalled => .ok status
   | .VersionMismatch _ _ _ => .ok status
   | .Unknown e _ => .error e)

/-- Rust `detect_all_with_options`: one `detect_one` per known agent.  The
`HashMap` built from the `join_all` results is modelled as the association
list in `AgentKind::all()` order (the keys are pairwise distinct, so the map
and the list hold exactly the same entries). -/
def detect_all_with_options (options : DetectOptions)
    (env : AgentKind → DetectEnv) :
    List (AgentKind × Except DetectionError AgentStatus) :=
  AgentKind.all.map (fun kind => detect_one kind options (env kind))

/-! ## Install data model (`src/install/types.rs`, `src/install/errors.rs`,
`src/install/progress.rs`) -/

/-- The `Prerequisite` struct. -/
structure Prerequisite where
  name : String
  check_command : Option String
  install_url : Option String
deriving DecidableEq, Repr

/-- The `StructuredCommand` struct (consumed by process execution, which is
environment here). -/
structure StructuredCommand where
  program : String
  args : List String
  env_vars : List (String × String)
deriving DecidableEq, Repr

/-- The `InstallInfo` struct, restricted to the fields the install pipeline
consumes: the primary command, the prerequisite list, the platform-support
flag and the docs URL.  (`alternatives`, `verification` and the display-only
fields of `InstallMethod` are read by no modelled function.) -/
structure InstallInfo where
  primary : StructuredCommand
  prerequisites : List Prerequisite
  is_supported : Bool
  docs_url : String
deriving DecidableEq, Repr

/-- The `InstallError` enum; `Duration` is a `Nat` and exit codes are `Int`. -/
inductive InstallError
  | PrerequisiteMissing (name : String) (install_url : Option String)
      (fix : String)
  | PrerequisiteVersionMismatch (name : String) (required : String)
      (found : String) (fix : String)
  | Network (message : String) (stderr : Option String) (fix : String)
  | PermissionDenied (message : String) (fix : String)
  | Timeout (duration : Nat) (fix : String)
  | InstallerFailed (message : String) (exit_code : Option Int)
      (stdout : Option String) (stderr : Option String) (fix : String)
  | VerificationFailed (agent : AgentKind) (fix : String)
  | UnsupportedPlatform (agent : AgentKind) (fix : String)
deriving DecidableEq, Repr

/-- Rust `InstallError::fix_suggestion`: the `fix` field of each variant. -/
def InstallError.fix_suggestion : InstallError → String
  | .PrerequisiteMissing _ _ fix => fix
  | .PrerequisiteVersionMismatch _ _ _ fix => fix
  | .Network _ _ fix => fix
  | .PermissionDenied _ fix => fix
  | .Timeout _ fix => fix
  | .InstallerFailed _ _ _ _ fix => fix
  | .VerificationFailed _ fix => fix
  | .UnsupportedPlatform _ fix => fix

/-- The `InstallProgress` enum. -/
inductive InstallProgress
  | Started (agent : AgentKind)
  | CheckingPrerequisites
  | Downloading (agent : AgentKind) (estimated_remaining : Option Nat)
  | Installing (agent : AgentKind)
  | Verifying (agent : AgentKind)
  | Completed (agent : AgentKind)
deriving DecidableEq, Repr

/-- The `InstallOptions` struct. -/
structure InstallOptions where
  timeout : Nat
deriving DecidableEq, Repr

/-- Captured output of a completed child process: `status.success()`,
`status.code()`, and the lossy-decoded stdout and stderr.  (Empty captured
bytes decode to the empty string and non-empty bytes to a non-empty string,
so byte-level emptiness checks are string emptiness checks here.) -/
structure ProcessOutput where
  statusSuccess : Bool
  exitCode : Option Int
  stdout : String
  stderr : String
deriving DecidableEq, Repr

/-! ## Prerequisite checking (`src/install/prereq.rs`) -/

/-- Whether `split_whitespace` of the check command yields any token.  The
source binds `parts[0]` and `parts[1..]` as program and arguments, which are
consumed by process execution (environment here); only the emptiness of the
split affects control flow. -/
def hasCommandToken (cmd : String) : Bool :=
  cmd.data.any (fun c => !isRustWhitespace c)

/-- Output selection of `check_prerequisite`: stdout preferred, stderr when
stdout is empty. -/
def outputStr (output : ProcessOutput) : String :=
  if output.stdout ≠ "" then output.stdout else output.stderr

/-- The `PrerequisiteMissing` error built by `check_prerequisite`. -/
def prereqMissingError (prereq : Prerequisite) : InstallError :=
  .PrerequisiteMissing prereq.name prereq.install_url
    ("Install " ++ prereq.name ++ " from " ++
     prereq.install_url.getD "the official website")

/-- The minimum major version extracted from the prerequisite name by
`check_prerequisite`: the first `(\d+)\+` match parsed as `u32`, with the
`unwrap_or(0)` default when there is no match or the parse overflows. -/
def requiredMajorOf (name : String) : Nat :=
  match findMinVersion name.data with
  | some d => parseU32 d
  | none => 0

/-- Rust `check_prerequisite` with the check command's execution supplied:
`run` is `None` when the command failed to spawn or timed out, and
`Some output` when it completed (with any exit status). -/
def check_prerequisite (prereq : Prerequisite) (run : Option ProcessOutput) :
    Except InstallError Unit :=
  match prereq.check_command with
  | none => .ok ()
  | some cmd =>
    if !hasCommandToken cmd then .ok ()
    else
      match run with
      | none => .error (prereqMissingError prereq)
      | some output =>
        match findMatch2 ['v'] (outputStr output).data with
        | none => .error (prereqMissingError prereq)
        | some (_, (d1, d2), _) =>
          if parseU32 d1 < requiredMajorOf prereq.name then
            .error (.PrerequisiteVersionMismatch prereq.name
              (toString (requiredMajorOf prereq.name) ++ "+")
              (toString (parseU32 d1) ++ "." ++ toString (parseU32 d2))
              ("Upgrade " ++ prereq.name ++ " to version " ++
               toString (requiredMajorOf prereq.name) ++ "+"))
          else .ok ()

/-- The `for prereq in &info.prerequisites` loop of `can_install` with the `?`
operator: first error wins. -/
def checkPrereqList (prereqEnv : Prerequisite → Option ProcessOutput) :
    List Prerequisite → Except InstallError Unit
  | [] => .ok ()
  | p :: rest =>
    match check_prerequisite p (prereqEnv p) with
    | .error e => .error e
    | .ok _ => checkPrereqList prereqEnv rest

/-- Rust `can_install`: platform support first, then each prerequisite. -/
def can_install (kind : AgentKind) (info : InstallInfo)
    (prereqEnv : Prerequisite → Option ProcessOutput) :
    Except InstallError Unit :=
  if !info.is_supported then
    .error (.UnsupportedPlatform kind
      ("See " ++ info.docs_url ++ " for supported platforms"))
  else
    checkPrereqList prereqEnv info.prerequisites

/-! ## Install execution (`src/install/executor.rs`) -/

/-- Result of running the primary install command under
`timeout(options.timeout, command.output())`: the timeout elapsed, the spawn
failed (with whether the error kind was `PermissionDenied`), or the process
completed. -/
inductive ExecResult
  | timedOut
  | spawnError (permissionDenied : Bool) (message : String)
  | completed (output : ProcessOutput)
deriving DecidableEq, Repr

/-- Debug rendering of the timeout `Duration` (seconds), standing in for
Rust's `format!` with the `Debug` formatter. -/
def durationRepr (seconds : Nat) : String := toString seconds ++ "s"

/-- Debug rendering of `output.status.code()`, standing in for Rust's
`format!` with the `Debug` formatter on `Option<i32>`. -/
def exitCodeRepr : Option Int → String
  | some c => "Some(" ++ toString c ++ ")"
  | none => "None"

/-- The network-failure markers scanned for in stderr by the executor. -/
def isNetworkStderr (stderr : String) : Bool :=
  strContains stderr "network" || strContains stderr "connection" ||
  strContains stderr "resolve" || strContains stderr "ETIMEDOUT" ||
  strContains stderr "ENOTFOUND"

/-- Rust `install` with its effects supplied: `prereqEnv` gives each
prerequisite check command's execution result, `exec` the primary install
command's, and `postDetect` the `detect(kind)` outcome of the verification
step.  Returns the sequence of progress events delivered to `on_progress`, in
order, together with the result. -/
def install (kind : AgentKind) (options : InstallOptions) (info : InstallInfo)
    (prereqEnv : Prerequisite → Option ProcessOutput) (exec : ExecResult)
    (postDetect : AgentStatus) :
    List InstallProgress × Except InstallError Unit :=
  match can_install kind info prereqEnv with
  | .error e => ([.Started kind, .CheckingPrerequisites], .error e)
  | .ok _ =>
    match exec with
    | .spawnError permissionDenied message =>
      if permissionDenied then
        ([.Started kind, .CheckingPrerequisites, .Installing kind],
         .error (.PermissionDenied message
           "Try running with appropriate permissions"))
      else
        ([.Started kind, .CheckingPrerequisites, .Installing kind],
         .error (.InstallerFailed message none none none
           "Check the command and try again"))
    | .timedOut =>
      ([.Started kind, .CheckingPrerequisites, .Installing kind],
       .error (.Timeout options.timeout
         ("Installation timed out after " ++ durationRepr options.timeout ++
          ". Try with a longer timeout or check network.")))
    | .completed output =>
      if !output.statusSuccess then
        if isNetworkStderr output.stderr then
          ([.Started kind, .CheckingPrerequisites, .Installing kind],
           .error (.Network "Network error during installation"
             (some output.stderr) "Check your internet connection and try again"))
        else
          ([.Started kind, .CheckingPrerequisites, .Installing kind],
           .error (.InstallerFailed
             ("Installer exited with code " ++ exitCodeRepr output.exitCode)
             output.exitCode (some output.stdout) (some output.stderr)
             "See installer output above for details"))
      else
        if !postDetect.is_usable then
          ([.Started kind, .CheckingPrerequisites, .Installing kind,
            .Verifying kind],
           .error (.VerificationFailed kind
             "Installation completed but agent not found. You may need to restart your terminal for PATH changes to take effect."))
        else
          ([.Started kind, .CheckingPrerequisites, .Installing kind,
            .Verifying kind, .Completed kind], .ok ())

/-- Decidable equality for `Except`, used to evaluate the embedded functions
on concrete inputs. -/
instance {e a : Type} [DecidableEq e] [DecidableEq a] :
    DecidableEq (Except e a) := fun x y =>
  match x, y with
  | .error u, .error w =>
    if h : u = w then isTrue (by rw [h])
    else isFalse (fun hc => h (Except.error.inj hc))
  | .ok u, .ok w =>
    if h : u = w then isTrue (by rw [h])
    else isFalse (fun hc => h (Except.ok.inj hc))
  | .error _, .ok _ => isFalse (fun hc => Except.noConfusion hc)
  | .ok _, .error _ => isFalse (fun hc => Except.noConfusion hc)

/-! ## Specification-side predicates

These render the spec's phrase "contains a well-formed version" directly, for
comparison with `parse_version`; they are deliberately written from the spec's
words, not from the source. -/

/-- A valid semver numeric identifier, as the spec's "well-formed" component:
ASCII decimal digits, no leading zero, within `u64`. -/
def SpecValidNum (d : List Char) : Prop :=
  d ≠ [] ∧ (∀ c ∈ d, c.isDigit = true) ∧ (d.head? = some '0' → d = ['0']) ∧
  digitsVal d < 2 ^ 64

/-- A well-formed three-part numeric version, optionally prefixed with a
single case-insensitive `v`. -/
def SpecVersion3 (m : List Char) : Prop :=
  ∃ p d1 d2 d3, (p = [] ∨ p = ['v'] ∨ p = ['V']) ∧
    m = p ++ d1 ++ '.' :: d2 ++ '.' :: d3 ∧
    SpecValidNum d1 ∧ SpecValidNum d2 ∧ SpecValidNum d3

/-- The input text contains a well-formed three-part numeric version. -/
def ContainsVersion3 (s : List Char) : Prop :=
  ∃ pre m post, s = pre ++ m ++ post ∧ SpecVersion3 m

/-- A well-formed two-part numeric version, optionally `v`-prefixed. -/
def SpecVersion2 (m : List Char) : Prop :=
  ∃ p d1 d2, (p = [] ∨ p = ['v'] ∨ p = ['V']) ∧
    m = p ++ d1 ++ '.' :: d2 ∧ SpecValidNum d1 ∧ SpecValidNum d2

/-! ## Helper lemmas about the matchers -/

theorem digit_not_vlike {c : Char} (h : isUnicodeDigit c = true) :
    (c == 'v' || c == 'V') = false := by
  have hv : c ≠ 'v' := by rintro rfl; exact absurd h (by decide)
  have hV : c ≠ 'V' := by rintro rfl; exact absurd h (by decide)
  simp [hv, hV]

theorem takeWhile_append_eq (p : Char → Bool) (d r : List Char)
    (hd : ∀ c ∈ d, p c = true)
    (hr : ∀ c, r.head? = some c → p c = false) :
    (d ++ r).takeWhile p = d ∧ (d ++ r).dropWhile p = r := by
  induction d with
  | nil =>
    simp only [List.nil_append]
    cases r with
    | nil => simp
    | cons c rs =>
      have hc : p c = false := hr c rfl
      constructor
      · rw [List.takeWhile_cons_of_neg (by simp [hc])]
      · rw [List.dropWhile_cons_of_neg (by simp [hc])]
  | cons a as ih =>
    have ha : p a = true := hd a (by simp)
    have ih' := ih (fun c hc => hd c (by simp [hc]))
    constructor
    · rw [List.cons_append, List.takeWhile_cons_of_pos ha, ih'.1]
    · rw [List.cons_append, List.dropWhile_cons_of_pos ha, ih'.2]

theorem mem_takeWhile_sat (p : Char → Bool) (l : List Char) :
    ∀ c ∈ l.takeWhile p, p c = true := by
  induction l with
  | nil => simp
  | cons a as ih =>
    by_cases h : p a
    · rw [List.takeWhile_cons_of_pos h]
      intro c hc
      rcases List.mem_cons.mp hc with rfl | hc
      · exact h
      · exact ih c hc
    · rw [List.takeWhile_cons_of_neg h]
      intro c hc
      exact absurd hc (List.not_mem_nil c)

theorem matchCore3_eq {s m d1 d2 d3 rest : List Char}
    (h : matchCore3 s = some (m, (d1, d2, d3), rest)) :
    m = d1 ++ '.' :: (d2 ++ '.' :: d3) ∧ s = m ++ rest ∧
    (∀ c ∈ d1, isUnicodeDigit c = true) ∧ (∀ c ∈ d2, isUnicodeDigit c = true) ∧
    (∀ c ∈ d3, isUnicodeDigit c = true) ∧ d1 ≠ [] ∧ d2 ≠ [] ∧ d3 ≠ [] := by
  simp only [matchCore3] at h
  split at h
  case _ r2 heq1 =>
    split at h
    case _ r4 heq2 =>
      split at h
      case _ => exact absurd h (by simp)
      case _ hcond =>
        simp only [Option.some.injEq, Prod.mk.injEq] at h
        obtain ⟨hm, ⟨hd1, hd2, hd3⟩, hrest⟩ := h
        subst hd1 hd2 hd3 hm hrest
        simp only [not_or] at hcond
        obtain ⟨hn1, hn2, hn3⟩ := hcond
        refine ⟨rfl, ?_, mem_takeWhile_sat _ _, mem_takeWhile_sat _ _,
                mem_takeWhile_sat _ _, hn1, hn2, hn3⟩
        have hassoc :
            (List.takeWhile isUnicodeDigit s ++
              '.' :: (List.takeWhile isUnicodeDigit r2 ++
                '.' :: List.takeWhile isUnicodeDigit r4)) ++
              List.dropWhile isUnicodeDigit r4 =
            List.takeWhile isUnicodeDigit s ++
              '.' :: (List.takeWhile isUnicodeDigit r2 ++
                '.' :: (List.takeWhile isUnicodeDigit r4 ++
                  List.dropWhile isUnicodeDigit r4)) := by
          simp [List.append_assoc]
        rw [hassoc, List.takeWhile_append_dropWhile, ← heq2,
            List.takeWhile_append_dropWhile, ← heq1,
            List.takeWhile_append_dropWhile]
    case _ => exact absurd h (by simp)
  case _ => exact absurd h (by simp)

theorem matchCore2_eq {s m d1 d2 rest : List Char}
    (h : matchCore2 s = some (m, (d1, d2), rest)) :
    m = d1 ++ '.' :: d2 ∧ s = m ++ rest ∧
    (∀ c ∈ d1, isUnicodeDigit c = true) ∧ (∀ c ∈ d2, isUnicodeDigit c = true) ∧
    d1 ≠ [] ∧ d2 ≠ [] := by
  simp only [matchCore2] at h
  split at h
  case _ r2 heq1 =>
    split at h
    case _ => exact absurd h (by simp)
    case _ hcond =>
      simp only [Option.some.injEq, Prod.mk.injEq] at h
      obtain ⟨hm, ⟨hd1, hd2⟩, hrest⟩ := h
      subst hd1 hd2 hm hrest
      simp only [not_or] at hcond
      obtain ⟨hn1, hn2⟩ := hcond
      refine ⟨rfl, ?_, mem_takeWhile_sat _ _, mem_takeWhile_sat _ _, hn1, hn2⟩
      have hassoc :
          (List.takeWhile isUnicodeDigit s ++
            '.' :: List.takeWhile isUnicodeDigit r2) ++
            List.dropWhile isUnicodeDigit r2 =
          List.takeWhile isUnicodeDigit s ++
            '.' :: (List.takeWhile isUnicodeDigit r2 ++
              List.dropWhile isUnicodeDigit r2) := by
        simp [List.append_assoc]
      rw [hassoc, List.takeWhile_append_dropWhile, ← heq1,
          List.takeWhile_append_dropWhile]
  case _ => exact absurd h (by simp)

theorem match3At_eq {vchars s m d1 d2 d3 rest : List Char}
    (h : match3At vchars s = some (m, (d1, d2, d3), rest)) :
    s = m ++ rest ∧
    (m = d1 ++ '.' :: (d2 ++ '.' :: d3) ∨
     ∃ c, c ∈ vchars ∧ m = c :: (d1 ++ '.' :: (d2 ++ '.' :: d3))) ∧
    (∀ c ∈ d1, isUnicodeDigit c = true) ∧ (∀ c ∈ d2, isUnicodeDigit c = true) ∧
    (∀ c ∈ d3, isUnicodeDigit c = true) ∧ d1 ≠ [] ∧ d2 ≠ [] ∧ d3 ≠ [] := by
  unfold match3At at h
  split at h
  case _ => exact absurd h (by simp)
  case _ c t =>
    split at h
    case _ hc =>
      split at h
      case _ m' caps' rest' heq =>
        simp only [Option.some.injEq, Prod.mk.injEq] at h
        obtain ⟨hm, hcaps, hrest⟩ := h
        obtain ⟨e1, e2, e3⟩ : caps'.1 = d1 ∧ caps'.2.1 = d2 ∧ caps'.2.2 = d3 := by
          refine ⟨congrArg (fun x => x.1) hcaps, ?_, ?_⟩
          · exact congrArg (fun x => x.2.1) hcaps
          · exact congrArg (fun x => x.2.2) hcaps
        obtain ⟨cm, ce, cd1, cd2, cd3, cn1, cn2, cn3⟩ :=
          matchCore3_eq (show matchCore3 t = some (m', (d1, d2, d3), rest') by
            rw [heq]
            subst e1 e2 e3
            rfl)
        subst hm hrest cm
        refine ⟨by rw [ce]; simp [List.append_assoc], Or.inr ⟨c, hc, rfl⟩, cd1, cd2, cd3, cn1, cn2, cn3⟩
      case _ heq =>
        obtain ⟨cm, ce, cd1, cd2, cd3, cn1, cn2, cn3⟩ := matchCore3_eq h
        exact ⟨ce, Or.inl cm, cd1, cd2, cd3, cn1, cn2, cn3⟩
    case _ =>
      obtain ⟨cm, ce, cd1, cd2, cd3, cn1, cn2, cn3⟩ := matchCore3_eq h
      exact ⟨ce, Or.inl cm, cd1, cd2, cd3, cn1, cn2, cn3⟩

theorem match2At_eq {vchars s m d1 d2 rest : List Char}
    (h : match2At vchars s = some (m, (d1, d2), rest)) :
    s = m ++ rest ∧
    (m = d1 ++ '.' :: d2 ∨
     ∃ c, c ∈ vchars ∧ m = c :: (d1 ++ '.' :: d2)) ∧
    (∀ c ∈ d1, isUnicodeDigit c = true) ∧ (∀ c ∈ d2, isUnicodeDigit c = true) ∧
    d1 ≠ [] ∧ d2 ≠ [] := by
  unfold match2At at h
  split at h
  case _ => exact absurd h (by simp)
  case _ c t =>
    split at h
    case _ hc =>
      split at h
      case _ m' caps' rest' heq =>
        simp only [Option.some.injEq, Prod.mk.injEq] at h
        obtain ⟨hm, hcaps, hrest⟩ := h
        obtain ⟨e1, e2⟩ : caps'.1 = d1 ∧ caps'.2 = d2 :=
          ⟨congrArg (fun x => x.1) hcaps, congrArg (fun x => x.2) hcaps⟩
        obtain ⟨cm, ce, cd1, cd2, cn1, cn2⟩ :=
          matchCore2_eq (show matchCore2 t = some (m', (d1, d2), rest') by
            rw [heq]
            subst e1 e2
            rfl)
        subst hm hrest cm
        refine ⟨by rw [ce]; simp [List.append_assoc], Or.inr ⟨c, hc, rfl⟩, cd1, cd2, cn1, cn2⟩
      case _ heq =>
        obtain ⟨cm, ce, cd1, cd2, cn1, cn2⟩ := matchCore2_eq h
        exact ⟨ce, Or.inl cm, cd1, cd2, cn1, cn2⟩
    case _ =>
      obtain ⟨cm, ce, cd1, cd2, cn1, cn2⟩ := matchCore2_eq h
      exact ⟨ce, Or.inl cm, cd1, cd2, cn1, cn2⟩

theorem findMatch3_split {vchars s : List Char} {r}
    (h : findMatch3 vchars s = some r) :
    ∃ pre tail, s = pre ++ tail ∧ match3At vchars tail = some r := by
  induction s with
  | nil => exact absurd h (by simp [findMatch3])
  | cons c t ih =>
    rw [findMatch3] at h
    split at h
    case _ heq =>
      exact ⟨[], c :: t, rfl, by rw [heq, ← h]⟩
    case _ heq =>
      obtain ⟨pre, tail, hpre, hm⟩ := ih h
      exact ⟨c :: pre, tail, by rw [List.cons_append, ← hpre], hm⟩

theorem findMatch2_split {vchars s : List Char} {r}
    (h : findMatch2 vchars s = some r) :
    ∃ pre tail, s = pre ++ tail ∧ match2At vchars tail = some r := by
  induction s with
  | nil => exact absurd h (by simp [findMatch2])
  | cons c t ih =>
    rw [findMatch2] at h
    split at h
    case _ heq =>
      exact ⟨[], c :: t, rfl, by rw [heq, ← h]⟩
    case _ heq =>
      obtain ⟨pre, tail, hpre, hm⟩ := ih h
      exact ⟨c :: pre, tail, by rw [List.cons_append, ← hpre], hm⟩

theorem stripV_digit_head {d1 : List Char} (rest : List Char) (hne : d1 ≠ [])
    (hd : ∀ c ∈ d1, isUnicodeDigit c = true) :
    stripV (d1 ++ rest) = d1 ++ rest := by
  cases d1 with
  | nil => exact absurd rfl hne
  | cons a as =>
    have ha : (a == 'v' || a == 'V') = false := digit_not_vlike (hd a (by simp))
    rw [stripV, List.cons_append, List.dropWhile_cons_of_neg (by simp [ha])]

theorem matchCore3_of_shape {d1 d2 d3 : List Char}
    (h1 : ∀ c ∈ d1, isUnicodeDigit c = true) (h2 : ∀ c ∈ d2, isUnicodeDigit c = true)
    (h3 : ∀ c ∈ d3, isUnicodeDigit c = true)
    (n1 : d1 ≠ []) (n2 : d2 ≠ []) (n3 : d3 ≠ []) :
    matchCore3 (d1 ++ '.' :: (d2 ++ '.' :: d3)) =
      some (d1 ++ '.' :: (d2 ++ '.' :: d3), (d1, d2, d3), []) := by
  have t1 := takeWhile_append_eq isUnicodeDigit d1 ('.' :: (d2 ++ '.' :: d3)) h1
    (fun c hc => by
      simp only [List.head?_cons, Option.some.injEq] at hc
      subst hc; decide)
  have t2 := takeWhile_append_eq isUnicodeDigit d2 ('.' :: d3) h2
    (fun c hc => by
      simp only [List.head?_cons, Option.some.injEq] at hc
      subst hc; decide)
  have t3 := takeWhile_append_eq isUnicodeDigit d3 [] h3 (fun c hc => by simp at hc)
  rw [List.append_nil] at t3
  simp only [matchCore3, t1.1, t1.2, t2.1, t2.2, t3.1, t3.2]
  rw [if_neg (by simp [n1, n2, n3])]

theorem versionParse_of_shape {d1 d2 d3 : List Char}
    (h1 : ∀ c ∈ d1, isUnicodeDigit c = true) (h2 : ∀ c ∈ d2, isUnicodeDigit c = true)
    (h3 : ∀ c ∈ d3, isUnicodeDigit c = true)
    (n1 : d1 ≠ []) (n2 : d2 ≠ []) (n3 : d3 ≠ []) :
    versionParse (d1 ++ '.' :: (d2 ++ '.' :: d3)) =
      if validNumeric d1 && validNumeric d2 && validNumeric d3 then
        some ⟨digitsVal d1, digitsVal d2, digitsVal d3⟩
      else none := by
  rw [versionParse, matchCore3_of_shape h1 h2 h3 n1 n2 n3]

theorem stripV_of_shape {vchars m core : List Char}
    (hsub : ∀ c ∈ vchars, (c == 'v' || c == 'V') = true)
    (hshape : m = core ∨ ∃ c, c ∈ vchars ∧ m = c :: core)
    (hne : core ≠ []) (hd : ∀ c, core.head? = some c → isUnicodeDigit c = true) :
    stripV m = core := by
  have hcore : stripV core = core := by
    cases core with
    | nil => exact absurd rfl hne
    | cons a as =>
      have ha := digit_not_vlike (hd a rfl)
      rw [stripV, List.dropWhile_cons_of_neg (by simp [ha])]
  rcases hshape with hm | ⟨c, hc, hm⟩
  · rw [hm, hcore]
  · rw [hm, stripV, List.dropWhile_cons_of_pos (by simp [hsub c hc])]
    rw [stripV] at hcore
    exact hcore

/-- C1 (amended): whenever the leftmost three-part pattern match of the input
is valid semver, `parse_version` returns exactly that match's version and
matched substring, which occurs in the input; the three-part pattern wins over
the two-part pattern. -/
theorem parse_version_three_part {output m d1 d2 d3 rest : List Char}
    (hmatch : findMatch3 ['v', 'V'] output = some (m, (d1, d2, d3), rest))
    (hv1 : validNumeric d1 = true) (hv2 : validNumeric d2 = true)
    (hv3 : validNumeric d3 = true) :
    parse_version output =
      some (⟨digitsVal d1, digitsVal d2, digitsVal d3⟩, m) ∧
    ∃ pre post, output = pre ++ m ++ post := by
  obtain ⟨pre, tail, hsplit, hat⟩ := findMatch3_split hmatch
  obtain ⟨happ, hshape, hd1, hd2, hd3, hn1, hn2, hn3⟩ := match3At_eq hat
  have hstrip : stripV m = d1 ++ '.' :: (d2 ++ '.' :: d3) := by
    refine stripV_of_shape (by decide) hshape (by simp [hn1]) ?_
    intro c hc
    cases d1 with
    | nil => exact absurd rfl hn1
    | cons a as =>
      simp only [List.cons_append, List.head?_cons, Option.some.injEq] at hc
      subst hc
      exact hd1 a (by simp)
  have hvp : versionParse (stripV m) =
      some ⟨digitsVal d1, digitsVal d2, digitsVal d3⟩ := by
    rw [hstrip, versionParse_of_shape hd1 hd2 hd3 hn1 hn2 hn3,
        if_pos (by simp [hv1, hv2, hv3])]
  have htp : tryParse3 output =
      some (⟨digitsVal d1, digitsVal d2, digitsVal d3⟩, m) := by
    simp only [tryParse3, hmatch, hvp]
  refine ⟨by simp only [parse_version, htp], pre, rest, ?_⟩
  rw [hsplit, happ]
  simp [List.append_assoc]

theorem parse_version_three_part_witness :
    parse_version "version 1.2.3 is available".data =
      some (⟨1, 2, 3⟩, "1.2.3".data) ∧
    ∃ pre post,
      "version 1.2.3 is available".data = pre ++ "1.2.3".data ++ post :=
  parse_version_three_part
    (show findMatch3 ['v', 'V'] "version 1.2.3 is available".data =
        some ("1.2.3".data, (['1'], ['2'], ['3']), " is available".data) by
      decide)
    (by decide) (by decide) (by decide)

/-- C1 (counterexample): the input `01.2.3` contains the well-formed version
`1.2.3`, yet `parse_version` returns `none` — the leftmost regex match is
`01.2.3`, whose leading zero fails semver validation, and the two-part
fallback `01.2` is rejected as the head of a three-part version. -/
theorem parse_version_c1_counterexample :
    ContainsVersion3 "01.2.3".data ∧ parse_version "01.2.3".data = none := by
  constructor
  · refine ⟨['0'], "1.2.3".data, [], by decide, [], ['1'], ['2'], ['3'],
      Or.inl rfl, by decide, ?_, ?_, ?_⟩ <;>
    exact ⟨by decide, by decide, by decide, by decide⟩
  · decide

/-- C2 (amended): when the three-part pattern finds no match and the two-part
pattern does, a match followed by `.<digit>` yields `none`, and otherwise a
valid match is normalized with a zero patch component and returned together
with the matched substring. -/
theorem parse_version_two_part {output m d1 d2 rest : List Char}
    (hno3 : findMatch3 ['v', 'V'] output = none)
    (hmatch : findMatch2 ['v', 'V'] output = some (m, (d1, d2), rest)) :
    (followedByDotDigit rest = true → parse_version output = none) ∧
    (followedByDotDigit rest = false → validNumeric d1 = true →
       validNumeric d2 = true →
       parse_version output = some (⟨digitsVal d1, digitsVal d2, 0⟩, m)) := by
  have htp3 : tryParse3 output = none := by simp only [tryParse3, hno3]
  obtain ⟨pre, tail, hsplit, hat⟩ := findMatch2_split hmatch
  obtain ⟨happ, hshape, hd1, hd2, hn1, hn2⟩ := match2At_eq hat
  have hstrip : stripV m = d1 ++ '.' :: d2 := by
    refine stripV_of_shape (by decide) hshape (by simp [hn1]) ?_
    intro c hc
    cases d1 with
    | nil => exact absurd rfl hn1
    | cons a as =>
      simp only [List.cons_append, List.head?_cons, Option.some.injEq] at hc
      subst hc
      exact hd1 a (by simp)
  constructor
  · intro hdd
    simp only [parse_version, htp3, tryParse2, hmatch, hdd, if_true]
  · intro hdd hv1 hv2
    have hvp : versionParse (stripV m ++ '.' :: ['0']) =
        some ⟨digitsVal d1, digitsVal d2, 0⟩ := by
      have hre : stripV m ++ '.' :: ['0'] =
          d1 ++ '.' :: (d2 ++ '.' :: ['0']) := by
        rw [hstrip]
        simp [List.append_assoc]
      rw [hre, versionParse_of_shape hd1 hd2 (by decide) hn1 hn2 (by decide),
          if_pos (by simp [hv1, hv2]; decide)]
      rfl
    simp only [parse_version, htp3, tryParse2, hmatch, hdd, if_false,
               Bool.false_eq_true, hvp]

theorem parse_version_two_part_witness :
    parse_version "version 1.2".data = some (⟨1, 2, 0⟩, "1.2".data) :=
  (parse_version_two_part (by decide)
      (show findMatch2 ['v', 'V'] "version 1.2".data =
          some ("1.2".data, (['1'], ['2']), []) by decide)).2
    (by decide) (by decide) (by decide)

/-- C2 (counterexample): in `01.2` the three-part pattern does not match and
the well-formed two-part version `1.2` occurs, not followed by `.<digit>`,
yet `parse_version` returns `none` rather than `1.2.0` — the leftmost
two-part regex match is `01.2`, which fails semver validation. -/
theorem parse_version_c2_counterexample :
    findMatch3 ['v', 'V'] "01.2".data = none ∧
    (∃ pre m post, "01.2".data = pre ++ m ++ post ∧ SpecVersion2 m ∧
       followedByDotDigit post = false) ∧
    parse_version "01.2".data = none := by
  refine ⟨by decide, ⟨['0'], "1.2".data, [], by decide, ?_, by decide⟩,
    by decide⟩
  exact ⟨[], ['1'], ['2'], Or.inl rfl, by decide,
    ⟨by decide, by decide, by decide, by decide⟩,
    ⟨by decide, by decide, by decide, by decide⟩⟩

/-- C3: with a resolved executable and version probing enabled, a probe
`Timeout` is demoted to `NotInstalled`, while every other probe error yields
`Unknown` carrying that error and the human-readable message. -/
theorem detect_with_options_probe_errors (kind : AgentKind)
    (options : DetectOptions) (path : String) (now : Nat)
    (hskip : options.skip_version = false) :
    detect_with_options kind options (some path)
      (.error .Timeout) now = .NotInstalled ∧
    ∀ e : DetectionError, e ≠ .Timeout →
      detect_with_options kind options (some path) (.error e) now =
        .Unknown e
          ("Failed to verify " ++ kind.display_name ++ ": " ++
           e.description) := by
  constructor
  · simp [detect_with_options, hskip]
  · intro e he
    cases e with
    | Timeout => exact absurd rfl he
    | PermissionDenied => simp [detect_with_options, hskip]
    | VersionParseFailed => simp [detect_with_options, hskip]
    | IoError => simp [detect_with_options, hskip]

theorem detect_with_options_probe_errors_witness :
    detect_with_options .ClaudeCode ⟨5, false⟩ (some "/usr/local/bin/claude")
      (.error .Timeout) 0 = .NotInstalled ∧
    detect_with_options .ClaudeCode ⟨5, false⟩ (some "/usr/local/bin/claude")
      (.error .IoError) 0 =
      .Unknown .IoError
        ("Failed to verify " ++ AgentKind.ClaudeCode.display_name ++ ": " ++
         DetectionError.IoError.description) :=
  ⟨(detect_with_options_probe_errors .ClaudeCode ⟨5, false⟩
      "/usr/local/bin/claude" 0 rfl).1,
   (detect_with_options_probe_errors .ClaudeCode ⟨5, false⟩
      "/usr/local/bin/claude" 0 rfl).2 .IoError (by decide)⟩

/-- C4: with a resolved executable, version probing enabled and a successful
probe whose output no version pattern matches, detection still returns
`Installed` with `version = none` and `raw_version` the trimmed raw output. -/
theorem detect_with_options_parse_failure (kind : AgentKind)
    (options : DetectOptions) (path : String) (out : String) (now : Nat)
    (hskip : options.skip_version = false)
    (hparse : parse_version out.data = none) :
    detect_with_options kind options (some path) (.ok out) now =
      .Installed ⟨path, none, some (rustTrim out),
                  detect_install_method path, now, none⟩ := by
  simp [detect_with_options, hskip, hparse]

theorem detect_with_options_parse_failure_witness :
    detect_with_options .Gemini ⟨5, false⟩ (some "/usr/bin/gemini")
      (.ok "development build\n") 3 =
      .Installed ⟨"/usr/bin/gemini", none,
                  some (rustTrim "development build\n"),
                  detect_install_method "/usr/bin/gemini", 3, none⟩ :=
  detect_with_options_parse_failure .Gemini ⟨5, false⟩ "/usr/bin/gemini"
    "development build\n" 3 rfl (by decide)

theorem detect_all_lookup (options : DetectOptions)
    (env : AgentKind → DetectEnv) (kind : AgentKind) :
    (detect_all_with_options options env).lookup kind =
      some (detect_one kind options (env kind)).2 := by
  cases kind <;> rfl

/-- C5: the parallel fan-out has exactly one entry per known agent kind, an
entry is `Err e` exactly when that agent's individual detection is
`Unknown e _`, and every other outcome is returned as `Ok`. -/
theorem detect_all_with_options_entries (options : DetectOptions)
    (env : AgentKind → DetectEnv) :
    ((detect_all_with_options options env).map Prod.fst = AgentKind.all ∧
     ∀ kind : AgentKind, AgentKind.all.count kind = 1) ∧
    (∀ (kind : AgentKind) (e : DetectionError),
       (detect_all_with_options options env).lookup kind =
           some (.error e) ↔
         ∃ msg, detect_with_options kind options (env kind).resolved
             (env kind).probe (env kind).now = .Unknown e msg) ∧
    (∀ kind : AgentKind,
       (∀ e msg, detect_with_options kind options (env kind).resolved
           (env kind).probe (env kind).now ≠ .Unknown e msg) →
       (detect_all_with_options options env).lookup kind =
         some (.ok (detect_with_options kind options (env kind).resolved
           (env kind).probe (env kind).now))) := by
  refine ⟨⟨rfl, fun kind => by cases kind <;> rfl⟩, ?_, ?_⟩
  · intro kind e
    rw [detect_all_lookup]
    cases h : detect_with_options kind options (env kind).resolved
        (env kind).probe (env kind).now with
    | Installed meta => simp [detect_one, h]
    | NotInstalled => simp [detect_one, h]
    | VersionMismatch found required path => simp [detect_one, h]
    | Unknown err msg =>
      simp only [detect_one, h, Option.some.injEq]
      constructor
      · intro hmv
        exact ⟨msg, by rw [Except.error.injEq] at hmv; rw [hmv]⟩
      · rintro ⟨msg', hmv⟩
        rw [AgentStatus.Unknown.injEq] at hmv
        rw [hmv.1]
  · intro kind hne
    rw [detect_all_lookup]
    cases h : detect_with_options kind options (env kind).resolved
        (env kind).probe (env kind).now with
    | Installed meta => simp [detect_one, h]
    | NotInstalled => simp [detect_one, h]
    | VersionMismatch found required path => simp [detect_one, h]
    | Unknown err msg => exact absurd h (hne err msg)

/-- C6 (amended): a prerequisite whose name's first `(\d+)\+` pattern encodes
a minimum major version `N` (ASCII digits, within `u32`), and whose completed
check command's output yields a first `major.minor` match with both components
ASCII digits within `u32` and major below `N`, is rejected with
`PrerequisiteVersionMismatch` carrying `required = "N+"` and
`found = "major.minor"`. -/
theorem check_prerequisite_version_mismatch (prereq : Prerequisite)
    (cmd : String) (out : ProcessOutput) (dN m d1 d2 rest : List Char)
    (hc : prereq.check_command = some cmd)
    (ht : hasCommandToken cmd = true)
    (hmin : findMinVersion prereq.name.data = some dN)
    (hNd : dN.all Char.isDigit = true) (hN : digitsVal dN < 2 ^ 32)
    (hmatch : findMatch2 ['v'] (outputStr out).data = some (m, (d1, d2), rest))
    (hA1 : d1.all Char.isDigit = true) (h1 : digitsVal d1 < 2 ^ 32)
    (hA2 : d2.all Char.isDigit = true) (h2 : digitsVal d2 < 2 ^ 32)
    (hlt : digitsVal d1 < digitsVal dN) :
    check_prerequisite prereq (some out) =
      .error (.PrerequisiteVersionMismatch prereq.name
        (toString (digitsVal dN) ++ "+")
        (toString (digitsVal d1) ++ "." ++ toString (digitsVal d2))
        ("Upgrade " ++ prereq.name ++ " to version " ++
         toString (digitsVal dN) ++ "+")) := by
  have hreq : requiredMajorOf prereq.name = digitsVal dN := by
    rw [requiredMajorOf, hmin]
    exact if_pos ⟨hNd, hN⟩
  have hp1 : parseU32 d1 = digitsVal d1 := if_pos ⟨hA1, h1⟩
  have hp2 : parseU32 d2 = digitsVal d2 := if_pos ⟨hA2, h2⟩
  simp only [check_prerequisite, hc, ht, Bool.not_true, Bool.false_eq_true,
             if_false, hmatch, hp1, hp2, hreq, if_pos hlt]

theorem check_prerequisite_version_mismatch_witness :
    check_prerequisite
        ⟨"Node.js 18+", some "node --version", some "https://nodejs.org"⟩
        (some ⟨false, some 1, "v16.13.2", ""⟩) =
      .error (.PrerequisiteVersionMismatch "Node.js 18+" "18+" "16.13"
        "Upgrade Node.js 18+ to version 18+") :=
  check_prerequisite_version_mismatch
    ⟨"Node.js 18+", some "node --version", some "https://nodejs.org"⟩
    "node --version" ⟨false, some 1, "v16.13.2", ""⟩
    "18".data "v16.13".data "16".data "13".data ".2".data
    rfl (by decide) (by decide) (by decide) (by decide) (by decide) (by decide)
    (by decide) (by decide) (by decide) (by decide)

/-- C6 (counterexample): for a minimum version beyond `u32` the source's
`parse::<u32>().ok().unwrap_or(0)` collapses the requirement to `0`, so a
prerequisite named with `5000000000+` whose check reports major `3` passes
instead of yielding `PrerequisiteVersionMismatch`. -/
theorem check_prerequisite_c6_counterexample :
    findMinVersion "Node.js 5000000000+".data = some "5000000000".data ∧
    digitsVal "3".data < digitsVal "5000000000".data ∧
    check_prerequisite
        ⟨"Node.js 5000000000+", some "node --version",
         some "https://nodejs.org"⟩
        (some ⟨true, some 0, "3.0", ""⟩) = .ok () :=
  ⟨by decide, by decide, by decide⟩

/-- C10: for a prerequisite with a (non-blank) check command, a completed
command's exit status is never consulted: a parseable version meeting the
required minimum yields `Ok` whatever the exit status; spawn failure or
timeout yields `PrerequisiteMissing`; and a completed command yields
`PrerequisiteMissing` only when no version parses from its selected output. -/
theorem check_prerequisite_ignores_exit_status (prereq : Prerequisite)
    (cmd : String) (hc : prereq.check_command = some cmd)
    (ht : hasCommandToken cmd = true) :
    (∀ (out : ProcessOutput) (m d1 d2 rest : List Char),
       findMatch2 ['v'] (outputStr out).data = some (m, (d1, d2), rest) →
       requiredMajorOf prereq.name ≤ parseU32 d1 →
       check_prerequisite prereq (some out) = .ok ()) ∧
    check_prerequisite prereq none = .error (prereqMissingError prereq) ∧
    (∀ (out : ProcessOutput) (n : String) (u : Option String) (f : String),
       check_prerequisite prereq (some out) =
           .error (.PrerequisiteMissing n u f) →
       findMatch2 ['v'] (outputStr out).data = none) := by
  refine ⟨?_, ?_, ?_⟩
  · intro out m d1 d2 rest hmatch hge
    simp only [check_prerequisite, hc, ht, Bool.not_true, Bool.false_eq_true,
               if_false, hmatch, if_neg (Nat.not_lt.mpr hge)]
  · simp only [check_prerequisite, hc, ht, Bool.not_true, Bool.false_eq_true,
               if_false]
  · intro out n u f h
    cases hfm : findMatch2 ['v'] (outputStr out).data with
    | none => rfl
    | some r =>
      obtain ⟨m, ⟨d1, d2⟩, rest⟩ := r
      simp only [check_prerequisite, hc, ht, Bool.not_true, Bool.false_eq_true,
                 if_false, hfm] at h
      split at h
      · simp at h
      · simp at h

theorem check_prerequisite_ignores_exit_status_witness :
    check_prerequisite
        ⟨"Node.js 18+", some "node --version", some "https://nodejs.org"⟩
        (some ⟨false, some 7, "", "v20.11.1"⟩) = .ok () ∧
    check_prerequisite
        ⟨"Node.js 18+", some "node --version", some "https://nodejs.org"⟩
        none =
      .error (prereqMissingError
        ⟨"Node.js 18+", some "node --version", some "https://nodejs.org"⟩) :=
  ⟨(check_prerequisite_ignores_exit_status
      ⟨"Node.js 18+", some "node --version", some "https://nodejs.org"⟩
      "node --version" rfl (by decide)).1
      ⟨false, some 7, "", "v20.11.1"⟩ "v20.11".data "20".data "11".data
      ".1".data (by decide) (by decide),
   (check_prerequisite_ignores_exit_status
      ⟨"Node.js 18+", some "node --version", some "https://nodejs.org"⟩
      "node --version" rfl (by decide)).2.1⟩

/-- C7: a successful install delivers exactly the progress events `Started`,
`CheckingPrerequisites`, `Installing`, `Verifying`, `Completed`, in that
order, each once; the returned list records the emission order, each event
being emitted before its stage's work runs. -/
theorem install_success_progress (kind : AgentKind) (options : InstallOptions)
    (info : InstallInfo) (prereqEnv : Prerequisite → Option ProcessOutput)
    (exec : ExecResult) (postDetect : AgentStatus)
    (evs : List InstallProgress)
    (h : install kind options info prereqEnv exec postDetect =
      (evs, .ok ())) :
    evs = [.Started kind, .CheckingPrerequisites, .Installing kind,
           .Verifying kind, .Completed kind] := by
  unfold install at h
  split at h
  · simp at h
  · split at h
    · split at h <;> simp at h
    · simp at h
    · split at h
      · split at h <;> simp at h
      · split at h
        · simp at h
        · rw [Prod.mk.injEq] at h
          exact h.1.symm

theorem install_success_progress_witness :
    (install .ClaudeCode ⟨300⟩
        ⟨⟨"curl", ["-fsSL", "https://claude.ai/install.sh"], []⟩, [], true,
         "https://docs.example"⟩
        (fun _ => none) (.completed ⟨true, some 0, "ok", ""⟩)
        (.Installed ⟨"/usr/local/bin/claude", none, none, none, 0, none⟩)).1 =
      [.Started .ClaudeCode, .CheckingPrerequisites, .Installing .ClaudeCode,
       .Verifying .ClaudeCode, .Completed .ClaudeCode] :=
  install_success_progress .ClaudeCode ⟨300⟩
    ⟨⟨"curl", ["-fsSL", "https://claude.ai/install.sh"], []⟩, [], true,
     "https://docs.example"⟩
    (fun _ => none) (.completed ⟨true, some 0, "ok", ""⟩)
    (.Installed ⟨"/usr/local/bin/claude", none, none, none, 0, none⟩)
    [.Started .ClaudeCode, .CheckingPrerequisites, .Installing .ClaudeCode,
     .Verifying .ClaudeCode, .Completed .ClaudeCode]
    (by decide)

/-- C8 (amended): an unsupported platform short-circuits with
`UnsupportedPlatform` right after the prerequisite-check stage is announced:
exactly `Started` and `CheckingPrerequisites` are emitted before the error is
returned. -/
theorem install_unsupported_platform (kind : AgentKind)
    (options : InstallOptions) (info : InstallInfo)
    (prereqEnv : Prerequisite → Option ProcessOutput) (exec : ExecResult)
    (postDetect : AgentStatus) (h : info.is_supported = false) :
    install kind options info prereqEnv exec postDetect =
      ([.Started kind, .CheckingPrerequisites],
       .error (.UnsupportedPlatform kind
         ("See " ++ info.docs_url ++ " for supported platforms"))) := by
  have hci : can_install kind info prereqEnv =
      .error (.UnsupportedPlatform kind
        ("See " ++ info.docs_url ++ " for supported platforms")) := by
    rw [can_install, h]
    rfl
  rw [install.eq_def, hci]

theorem install_unsupported_platform_witness :
    install .Gemini ⟨60⟩ ⟨⟨"npm", [], []⟩, [], false, "https://gemini.example"⟩
        (fun _ => none) .timedOut .NotInstalled =
      ([.Started .Gemini, .CheckingPrerequisites],
       .error (.UnsupportedPlatform .Gemini
         ("See " ++ "https://gemini.example" ++ " for supported platforms"))) :=
  install_unsupported_platform .Gemini ⟨60⟩
    ⟨⟨"npm", [], []⟩, [], false, "https://gemini.example"⟩
    (fun _ => none) .timedOut .NotInstalled rfl

/-- C8 (counterexample): with an unsupported platform, `CheckingPrerequisites`
is emitted after `Started` and before the `UnsupportedPlatform` error is
returned, so `Started` is not the only preceding progress event. -/
theorem install_unsupported_platform_counterexample :
    install .Codex ⟨300⟩ ⟨⟨"npm", [], []⟩, [], false, "https://example.com"⟩
        (fun _ => none) .timedOut .NotInstalled =
      ([.Started .Codex, .CheckingPrerequisites],
       .error (.UnsupportedPlatform .Codex
         "See https://example.com for supported platforms")) ∧
    [InstallProgress.Started .Codex, InstallProgress.CheckingPrerequisites] ≠
      [InstallProgress.Started .Codex] :=
  ⟨by decide, by decide⟩

/-- C9 (counterexample): `fix_suggestion` returns the `fix` field verbatim,
so an error constructed with an empty `fix` yields the empty suggestion. -/
theorem fix_suggestion_empty_counterexample :
    (InstallError.Timeout 300 "").fix_suggestion = "" := rfl

theorem str_append_data_ne (s t : String) (hs : s.data ≠ []) :
    (s ++ t).data ≠ [] := by
  rw [String.data_append]
  intro hx
  exact hs (List.append_eq_nil.mp hx).1

theorem str_ne_empty_of_data (s : String) (hs : s.data ≠ []) : s ≠ "" :=
  fun h => hs (by rw [h])

theorem str_append_ne_empty (s t : String) (hs : s.data ≠ []) :
    s ++ t ≠ "" :=
  str_ne_empty_of_data _ (str_append_data_ne s t hs)

theorem check_prerequisite_fix_nonempty (prereq : Prerequisite)
    (run : Option ProcessOutput) (e : InstallError)
    (h : check_prerequisite prereq run = .error e) :
    e.fix_suggestion ≠ "" := by
  have hmiss : (prereqMissingError prereq).fix_suggestion ≠ "" :=
    str_ne_empty_of_data _
      (str_append_data_ne ("Install " ++ prereq.name ++ " from ") _
        (str_append_data_ne ("Install " ++ prereq.name) " from "
          (str_append_data_ne "Install " prereq.name (by decide))))
  unfold check_prerequisite at h
  split at h
  · simp at h
  · split at h
    · simp at h
    · split at h
      · rw [Except.error.injEq] at h
        exact h ▸ hmiss
      · split at h
        · rw [Except.error.injEq] at h
          exact h ▸ hmiss
        · split at h
          · rw [Except.error.injEq] at h
            refine h ▸ str_ne_empty_of_data _ ?_
            exact str_append_data_ne
              ("Upgrade " ++ prereq.name ++ " to version " ++
                toString (requiredMajorOf prereq.name)) "+"
              (str_append_data_ne
                ("Upgrade " ++ prereq.name ++ " to version ")
                (toString (requiredMajorOf prereq.name))
                (str_append_data_ne ("Upgrade " ++ prereq.name) " to version "
                  (str_append_data_ne "Upgrade " prereq.name (by decide))))
          · simp at h

theorem checkPrereqList_fix_nonempty
    (prereqEnv : Prerequisite → Option ProcessOutput)
    (prereqs : List Prerequisite) (e : InstallError)
    (h : checkPrereqList prereqEnv prereqs = .error e) :
    e.fix_suggestion ≠ "" := by
  induction prereqs with
  | nil => exact absurd h (by simp [checkPrereqList])
  | cons p rest ih =>
    rw [checkPrereqList] at h
    split at h
    next err heq =>
      rw [Except.error.injEq] at h
      exact h ▸ check_prerequisite_fix_nonempty p (prereqEnv p) err heq
    next => exact ih h

/-- C9 (amended): `fix_suggestion` is the constructor's `fix` field, so it is
non-empty exactly when the error was built with a non-empty fix; every
`InstallError` the install pipeline itself returns (including those from
`can_install` and `check_prerequisite`) carries a non-empty suggestion. -/
theorem install_error_fix_nonempty (kind : AgentKind)
    (options : InstallOptions) (info : InstallInfo)
    (prereqEnv : Prerequisite → Option ProcessOutput) (exec : ExecResult)
    (postDetect : AgentStatus) (evs : List InstallProgress) (e : InstallError)
    (h : install kind options info prereqEnv exec postDetect =
      (evs, .error e)) :
    e.fix_suggestion ≠ "" := by
  unfold install at h
  split at h
  next err heq =>
    rw [Prod.mk.injEq, Except.error.injEq] at h
    refine h.2 ▸ ?_
    unfold can_install at heq
    split at heq
    · rw [Except.error.injEq] at heq
      refine heq ▸ str_ne_empty_of_data _ ?_
      exact str_append_data_ne ("See " ++ info.docs_url) _
        (str_append_data_ne "See " info.docs_url (by decide))
    · exact checkPrereqList_fix_nonempty prereqEnv info.prerequisites err heq
  next =>
    split at h
    · split at h <;>
        (rw [Prod.mk.injEq, Except.error.injEq] at h
         rw [← h.2]
         simp only [InstallError.fix_suggestion]
         decide)
    · rw [Prod.mk.injEq, Except.error.injEq] at h
      refine h.2 ▸ str_ne_empty_of_data _ ?_
      exact str_append_data_ne
        ("Installation timed out after " ++ durationRepr options.timeout) _
        (str_append_data_ne "Installation timed out after "
          (durationRepr options.timeout) (by decide))
    · split at h
      · split at h <;>
          (rw [Prod.mk.injEq, Except.error.injEq] at h
           rw [← h.2]
           simp only [InstallError.fix_suggestion]
           decide)
      · split at h
        · rw [Prod.mk.injEq, Except.error.injEq] at h
          rw [← h.2]
          simp only [InstallError.fix_suggestion]
          decide
        · simp at h

theorem install_error_fix_nonempty_witness :
    (InstallError.UnsupportedPlatform .OpenCode
        ("See " ++ "https://opencode.example" ++
         " for supported platforms")).fix_suggestion ≠ "" :=
  install_error_fix_nonempty .OpenCode ⟨300⟩
    ⟨⟨"sh", [], []⟩, [], false, "https://opencode.example"⟩
    (fun _ => none) .timedOut .NotInstalled
    [.Started .OpenCode, .CheckingPrerequisites] _ rfl
